import Mathlib

/-
Shallow embedding of the moab visualizer core: MoabModel.ts, the state-to-scene
transforms of MoabRenderer.tsx, the inbound field resolution of
MoabVisualizer.tsx, and the parts of the three.js vector and quaternion
library that the renderer calls (Vector3.normalize, Quaternion.normalize,
Quaternion.setFromUnitVectors, Quaternion.invert, Quaternion.multiply,
Vector3.applyQuaternion, as of the library revision that provides invert).
Real numbers model the JavaScript float arithmetic.  A JavaScript NaN result
of Math.asin or Math.acos on an argument outside the closed interval from -1
to 1, or of a division by zero feeding them, is modelled as Option none at
the call sites where it can arise; fields the protocol layer may leave
undefined are Option valued, none standing for undefined.
-/

namespace MoabViz

/-- Three-component vector mirroring THREE.Vector3 as the renderer uses it. -/
structure Vec3 where
  x : ℝ
  y : ℝ
  z : ℝ

/-- Quaternion with components in the THREE.Quaternion order x, y, z, w. -/
structure Quat where
  x : ℝ
  y : ℝ
  z : ℝ
  w : ℝ

/-- Constant DefaultBallRadius from MoabModel.ts. -/
noncomputable def DefaultBallRadius : ℝ := 0.020

/-- Constant DefaultPlateZ from MoabModel.ts. -/
noncomputable def DefaultPlateZ : ℝ := 0.042

/-- Constant PlateOriginToSurfaceOffset from MoabModel.ts. -/
noncomputable def PlateOriginToSurfaceOffset : ℝ := 0.009

/-- Mirror of the ModelState interface in MoabModel.ts.  The five estimated
fields receive no default substitution in MoabVisualizer, so their runtime
value may be the JavaScript undefined; they are therefore Option valued here,
none standing for undefined.  Every other field always carries a number. -/
structure ModelState where
  timeDelta : ℝ
  ballRadius : ℝ
  ballPosX : ℝ
  ballPosY : ℝ
  ballPosZ : ℝ
  ballVelX : ℝ
  ballVelY : ℝ
  ballVelZ : ℝ
  ballOrientX : ℝ
  ballOrientY : ℝ
  ballOrientZ : ℝ
  ballOrientW : ℝ
  estimatedPosX : Option ℝ
  estimatedPosY : Option ℝ
  estimatedRadius : Option ℝ
  estimatedVelX : Option ℝ
  estimatedVelY : Option ℝ
  targetPosX : ℝ
  targetPosY : ℝ
  obstaclePosX : ℝ
  obstaclePosY : ℝ
  obstacleRadius : ℝ
  platePosX : ℝ
  platePosY : ℝ
  platePosZ : ℝ
  plateNorX : ℝ
  plateNorY : ℝ
  plateNorZ : ℝ
  pitch : ℝ
  roll : ℝ
  terminal : Bool
  reward : ℝ

/-- Initial model state built in the MoabVisualizer constructor.  All
estimated fields start as plain numbers there, hence some values here. -/
noncomputable def defaultState : ModelState where
  timeDelta := 0.02
  ballRadius := DefaultBallRadius
  ballPosX := 0
  ballPosY := 0
  ballPosZ := DefaultPlateZ + PlateOriginToSurfaceOffset + DefaultBallRadius
  ballVelX := 0
  ballVelY := 0
  ballVelZ := 0
  ballOrientX := 0
  ballOrientY := 0
  ballOrientZ := 0
  ballOrientW := 1
  estimatedPosX := some 0
  estimatedPosY := some 0
  estimatedRadius := some DefaultBallRadius
  estimatedVelX := some 0
  estimatedVelY := some 0
  targetPosX := 0
  targetPosY := 0
  obstaclePosX := 0.03
  obstaclePosY := 0.03
  obstacleRadius := 0
  platePosX := 0
  platePosY := 0
  platePosZ := DefaultPlateZ
  plateNorX := 0
  plateNorY := 0
  plateNorZ := 1
  pitch := 0
  roll := 0
  terminal := false
  reward := 0

/- Arm kinematics, function anglesForArmJoints of MoabRenderer.tsx, lines
304 to 324.  The two local link lengths a and b and the hypotenuse c keep
their source names with an arm prefix. -/

/-- Lower arm joint-to-joint length, local constant a of anglesForArmJoints. -/
noncomputable def arm_a : ℝ := 0.055

/-- Upper arm joint-to-joint length, local constant b of anglesForArmJoints. -/
noncomputable def arm_b : ℝ := 0.055

/-- Hypotenuse c of anglesForArmJoints: Math.sqrt of v squared plus h
squared. -/
noncomputable def arm_c (v h : ℝ) : ℝ := Real.sqrt (v ^ 2 + h ^ 2)

/-- Math.asin with its domain behaviour explicit: a JavaScript argument
outside the closed interval from -1 to 1 yields NaN, modelled as none. -/
noncomputable def asinD (t : ℝ) : Option ℝ :=
  if -1 ≤ t ∧ t ≤ 1 then some (Real.arcsin t) else none

/-- Math.acos with its domain behaviour explicit: a JavaScript argument
outside the closed interval from -1 to 1 yields NaN, modelled as none. -/
noncomputable def acosD (t : ℝ) : Option ℝ :=
  if -1 ≤ t ∧ t ≤ 1 then some (Real.arccos t) else none

/-- Local theta_hc of anglesForArmJoints: Math.asin (v / c).  When c is zero
the JavaScript division yields NaN or an infinity and Math.asin of that is
NaN, modelled as none. -/
noncomputable def theta_hc (v h : ℝ) : Option ℝ :=
  if arm_c v h = 0 then none else asinD (v / arm_c v h)

/-- Local theta_link of anglesForArmJoints. -/
noncomputable def theta_link (v h : ℝ) : Option ℝ :=
  acosD ((arm_a ^ 2 + arm_b ^ 2 - arm_c v h ^ 2) / (2 * arm_a * arm_b))

/-- Local theta_ac of anglesForArmJoints.  When c is zero the JavaScript
division yields NaN or an infinity and Math.acos of that is NaN, modelled as
none. -/
noncomputable def theta_ac (v h : ℝ) : Option ℝ :=
  if arm_c v h = 0 then none
  else acosD ((arm_a ^ 2 + arm_c v h ^ 2 - arm_b ^ 2) / (2 * arm_a * arm_c v h))

/-- Local theta_servo of anglesForArmJoints: the branch on the sign of h.
A NaN in either operand propagates, hence none when either input is none. -/
noncomputable def theta_servo (v h : ℝ) : Option ℝ :=
  match theta_hc v h, theta_ac v h with
  | some s1, some s2 => some (if 0 ≤ h then s1 - s2 else Real.pi - (s1 + s2))
  | _, _ => none

/-- Function anglesForArmJoints of MoabRenderer.tsx: the returned pair of the
final link angle pi plus theta_link and the final servo angle two pi minus
theta_servo, each component none when the source computes NaN for it. -/
noncomputable def anglesForArmJoints (v h : ℝ) : Option ℝ × Option ℝ :=
  ((theta_link v h).map (fun t => Real.pi + t),
   (theta_servo v h).map (fun t => 2 * Real.pi - t))

/- Vector and quaternion operations of the three.js library, as called from
the renderer. -/

/-- THREE.Vector3.dot. -/
def dotV (u v : Vec3) : ℝ := u.x * v.x + u.y * v.y + u.z * v.z

/-- THREE.Vector3.length. -/
noncomputable def vecLength (v : Vec3) : ℝ := Real.sqrt (v.x ^ 2 + v.y ^ 2 + v.z ^ 2)

/-- THREE.Vector3.normalize: divideScalar of the length or 1, so the zero
vector maps to itself and no division by zero occurs. -/
noncomputable def vecNormalize (v : Vec3) : Vec3 :=
  ⟨v.x / (if vecLength v = 0 then 1 else vecLength v),
   v.y / (if vecLength v = 0 then 1 else vecLength v),
   v.z / (if vecLength v = 0 then 1 else vecLength v)⟩

/-- THREE.Quaternion.length. -/
noncomputable def quatLength (q : Quat) : ℝ :=
  Real.sqrt (q.x ^ 2 + q.y ^ 2 + q.z ^ 2 + q.w ^ 2)

/-- THREE.Quaternion.normalize: the zero quaternion maps to the identity,
otherwise every component divides by the length. -/
noncomputable def quatNormalize (q : Quat) : Quat :=
  if quatLength q = 0 then ⟨0, 0, 0, 1⟩
  else ⟨q.x / quatLength q, q.y / quatLength q, q.z / quatLength q, q.w / quatLength q⟩

/-- Branch threshold EPS of THREE.Quaternion.setFromUnitVectors. -/
noncomputable def EPS : ℝ := 0.000001

/-- THREE.Quaternion.setFromUnitVectors.  The library documents that it
assumes both direction vectors are normalized; the renderer nevertheless
passes the raw plate normal as vTo.  When the dot product plus one falls
below EPS the library picks a fallback axis perpendicular to vFrom and
returns a half-turn, otherwise it normalizes the cross product with scalar
part r. -/
noncomputable def setFromUnitVectors (vFrom vTo : Vec3) : Quat :=
  if dotV vFrom vTo + 1 < EPS then
    (if |vFrom.x| > |vFrom.z| then quatNormalize ⟨-vFrom.y, vFrom.x, 0, 0⟩
     else quatNormalize ⟨0, -vFrom.z, vFrom.y, 0⟩)
  else
    quatNormalize ⟨vFrom.y * vTo.z - vFrom.z * vTo.y,
                   vFrom.z * vTo.x - vFrom.x * vTo.z,
                   vFrom.x * vTo.y - vFrom.y * vTo.x,
                   dotV vFrom vTo + 1⟩

/-- THREE.Vector3.applyQuaternion, the exact component formula of the
library, which assumes the quaternion has unit length. -/
def applyQuaternion (v : Vec3) (q : Quat) : Vec3 :=
  ⟨(q.w * v.x + q.y * v.z - q.z * v.y) * q.w +
     (-q.x * v.x - q.y * v.y - q.z * v.z) * -q.x +
     (q.w * v.y + q.z * v.x - q.x * v.z) * -q.z -
     (q.w * v.z + q.x * v.y - q.y * v.x) * -q.y,
   (q.w * v.y + q.z * v.x - q.x * v.z) * q.w +
     (-q.x * v.x - q.y * v.y - q.z * v.z) * -q.y +
     (q.w * v.z + q.x * v.y - q.y * v.x) * -q.x -
     (q.w * v.x + q.y * v.z - q.z * v.y) * -q.z,
   (q.w * v.z + q.x * v.y - q.y * v.x) * q.w +
     (-q.x * v.x - q.y * v.y - q.z * v.z) * -q.z +
     (q.w * v.x + q.y * v.z - q.z * v.y) * -q.y -
     (q.w * v.y + q.z * v.x - q.x * v.z) * -q.x⟩

/-- THREE.Quaternion.multiplyQuaternions, the Hamilton product in the
component order of the library. -/
def quatMultiply (a b : Quat) : Quat :=
  ⟨a.x * b.w + a.w * b.x + a.y * b.z - a.z * b.y,
   a.y * b.w + a.w * b.y + a.z * b.x - a.x * b.z,
   a.z * b.w + a.w * b.z + a.x * b.y - a.y * b.x,
   a.w * b.w - a.x * b.x - a.y * b.y - a.z * b.z⟩

/-- THREE.Quaternion.conjugate. -/
def quatConjugate (q : Quat) : Quat := ⟨-q.x, -q.y, -q.z, q.w⟩

/-- THREE.Quaternion.invert: the library conjugates, assuming unit length. -/
def quatInvert (q : Quat) : Quat := quatConjugate q

/- Scene transform pieces of render3DScene in MoabRenderer.tsx. -/

/-- Constant zAxis of MoabRenderer.tsx. -/
def zAxisV : Vec3 := ⟨0, 0, 1⟩

/-- Local plateNor of render3DScene. -/
def plateNor (s : ModelState) : Vec3 := ⟨s.plateNorX, s.plateNorY, s.plateNorZ⟩

/-- Local plateQ of render3DScene: setFromUnitVectors from the z axis to the
raw, possibly non-unit, plate normal. -/
noncomputable def plateQ (s : ModelState) : Quat := setFromUnitVectors zAxisV (plateNor s)

/-- Local ballRot of render3DScene: the inbound orientation quaternion,
inverted. -/
def ballRot (s : ModelState) : Quat :=
  quatInvert ⟨s.ballOrientX, s.ballOrientY, s.ballOrientZ, s.ballOrientW⟩

/-- JavaScript a or b as render3DScene applies it to a possibly undefined
number: undefined and zero are falsy and select the fallback.  NaN, also
falsy, cannot arise for these fields and is not modelled. -/
noncomputable def jsOrNum (o : Option ℝ) (d : ℝ) : ℝ :=
  match o with
  | none => d
  | some t => if t = 0 then d else t

/-- Local ballRingPos of render3DScene: each horizontal coordinate picks the
estimated value through the JavaScript or, the vertical coordinate is the
plate z, and the plate origin vector is added to all three. -/
noncomputable def ballRingPos (s : ModelState) (plateOrig : Vec3) : Vec3 :=
  ⟨jsOrNum s.estimatedPosX s.ballPosX + plateOrig.x,
   jsOrNum s.estimatedPosY s.ballPosY + plateOrig.y,
   s.platePosZ + plateOrig.z⟩

/-- Local targetPos of render3DScene. -/
noncomputable def targetPos (s : ModelState) : Vec3 :=
  ⟨s.targetPosX, s.targetPosY, PlateOriginToSurfaceOffset⟩

/-- Target visibility of render3DScene: x or y of the target position is not
zero. -/
noncomputable def targetVisible (s : ModelState) : Prop :=
  (targetPos s).x ≠ 0 ∨ (targetPos s).y ≠ 0

/-- Obstacle visibility of render3DScene: obstacleRadius strictly greater
than zero. -/
def obstacleVisible (s : ModelState) : Prop := 0 < s.obstacleRadius

/-- Estimated position ring visibility of render3DScene: the three estimated
fields are all not undefined. -/
def estimatedPosVisible (s : ModelState) : Prop :=
  s.estimatedPosX ≠ none ∧ s.estimatedPosY ≠ none ∧ s.estimatedRadius ≠ none

/-- Estimated velocity indicator of render3DScene: none when either inbound
component is undefined, and otherwise the pair of the normalized direction
and the Euclidean length of the vector with the two components and zero z,
the indicator being visible in exactly the some case. -/
noncomputable def estimatedVelArrow (vx vy : Option ℝ) : Option (Vec3 × ℝ) :=
  match vx, vy with
  | some ex, some ey => some (vecNormalize ⟨ex, ey, 0⟩, vecLength ⟨ex, ey, 0⟩)
  | _, _ => none

/- Inbound field resolution of receiveMessage in MoabVisualizer.tsx, lines
245 to 290: the aliased fields of the iteration update message. -/

/-- The aliased numeric fields of an inbound iteration update message, each
possibly undefined. -/
structure IterationFields where
  roll : Option ℝ
  tilt_x : Option ℝ
  pitch : Option ℝ
  tilt_y : Option ℝ
  obstacle_x : Option ℝ
  obstacle_pos_x : Option ℝ
  obstacle_y : Option ℝ
  obstacle_pos_y : Option ℝ
  plate_x : Option ℝ
  plate_pos_x : Option ℝ
  plate_y : Option ℝ
  plate_pos_y : Option ℝ
  plate_z : Option ℝ
  plate_pos_z : Option ℝ
  target_x : Option ℝ
  target_pos_x : Option ℝ
  target_y : Option ℝ
  target_pos_y : Option ℝ

/-- The code pattern receiveMessage repeats for every aliased pair: read the
current name, and only if that is undefined read the legacy name. -/
def resolveAlias (current legacy : Option ℝ) : Option ℝ :=
  match current with
  | some t => some t
  | none => legacy

/-- Resolved roll of receiveMessage: roll, else tilt_x. -/
def resolvedRoll (m : IterationFields) : Option ℝ := resolveAlias m.roll m.tilt_x

/-- Resolved pitch of receiveMessage: pitch, else tilt_y. -/
def resolvedPitch (m : IterationFields) : Option ℝ := resolveAlias m.pitch m.tilt_y

/-- Resolved obstaclePosX of receiveMessage: obstacle_x, else obstacle_pos_x. -/
def resolvedObstaclePosX (m : IterationFields) : Option ℝ :=
  resolveAlias m.obstacle_x m.obstacle_pos_x

/-- Resolved obstaclePosY of receiveMessage: obstacle_y, else obstacle_pos_y. -/
def resolvedObstaclePosY (m : IterationFields) : Option ℝ :=
  resolveAlias m.obstacle_y m.obstacle_pos_y

/-- Resolved platePosX of receiveMessage: plate_x, else plate_pos_x. -/
def resolvedPlatePosX (m : IterationFields) : Option ℝ :=
  resolveAlias m.plate_x m.plate_pos_x

/-- Resolved platePosY of receiveMessage: plate_y, else plate_pos_y. -/
def resolvedPlatePosY (m : IterationFields) : Option ℝ :=
  resolveAlias m.plate_y m.plate_pos_y

/-- Resolved platePosZ of receiveMessage: plate_z, else plate_pos_z. -/
def resolvedPlatePosZ (m : IterationFields) : Option ℝ :=
  resolveAlias m.plate_z m.plate_pos_z

/-- Resolved targetPosX of receiveMessage: target_x, else target_pos_x. -/
def resolvedTargetPosX (m : IterationFields) : Option ℝ :=
  resolveAlias m.target_x m.target_pos_x

/-- Resolved targetPosY of receiveMessage: target_y, else target_pos_y. -/
def resolvedTargetPosY (m : IterationFields) : Option ℝ :=
  resolveAlias m.target_y m.target_pos_y

/-- An inbound message carrying only legacy names for roll and pitch. -/
noncomputable def legacyMsg : IterationFields where
  roll := none
  tilt_x := some 0.25
  pitch := none
  tilt_y := some (-0.5)
  obstacle_x := none
  obstacle_pos_x := none
  obstacle_y := none
  obstacle_pos_y := none
  plate_x := none
  plate_pos_x := none
  plate_y := none
  plate_pos_y := none
  plate_z := none
  plate_pos_z := none
  target_x := none
  target_pos_x := none
  target_y := none
  target_pos_y := none

/-- A model state whose estimated x is the number zero while the actual ball
x is nonzero, the input that separates the JavaScript falsy fallback from a
presence test. -/
noncomputable def zeroEstimateState : ModelState :=
  { defaultState with
      estimatedPosX := some 0
      estimatedPosY := some 0.03
      ballPosX := 0.05
      ballPosY := 0.06 }

/-- A model state with both estimated coordinates present and nonzero. -/
noncomputable def presentEstimateState : ModelState :=
  { defaultState with
      estimatedPosX := some 0.02
      estimatedPosY := some 0.01 }

/-- Vector u is parallel to n: u is a scalar multiple of n. -/
def parallelTo (u n : Vec3) : Prop := ∃ t : ℝ, u = ⟨t * n.x, t * n.y, t * n.z⟩

/- Helper lemmas about the arm hypotenuse and the guarded trigonometric
steps of anglesForArmJoints. -/

theorem arm_c_nonneg (v h : ℝ) : 0 ≤ arm_c v h := Real.sqrt_nonneg _

theorem arm_c_sq (v h : ℝ) : arm_c v h ^ 2 = v ^ 2 + h ^ 2 :=
  Real.sq_sqrt (by positivity)

theorem abs_le_arm_c (v h : ℝ) : |v| ≤ arm_c v h := by
  have h1 : v ^ 2 ≤ arm_c v h ^ 2 := by
    rw [arm_c_sq]; nlinarith [sq_nonneg h]
  calc |v| = Real.sqrt (v ^ 2) := (Real.sqrt_sq_eq_abs v).symm
    _ ≤ Real.sqrt (arm_c v h ^ 2) := Real.sqrt_le_sqrt h1
    _ = arm_c v h := Real.sqrt_sq (arm_c_nonneg v h)

theorem theta_hc_eq (v h : ℝ) (hc : 0 < arm_c v h) :
    theta_hc v h = some (Real.arcsin (v / arm_c v h)) := by
  have habs := abs_le_arm_c v h
  have h1 : -1 ≤ v / arm_c v h := by
    rw [le_div_iff hc]
    have := (abs_le.mp habs).1
    linarith
  have h2 : v / arm_c v h ≤ 1 := by
    rw [div_le_one hc]
    exact (abs_le.mp habs).2
  unfold theta_hc asinD
  rw [if_neg (ne_of_gt hc), if_pos ⟨h1, h2⟩]

theorem theta_link_eq (v h : ℝ) (hrange : arm_c v h ≤ arm_a + arm_b) :
    theta_link v h =
      some (Real.arccos ((arm_a ^ 2 + arm_b ^ 2 - arm_c v h ^ 2) / (2 * arm_a * arm_b))) := by
  have hc0 := arm_c_nonneg v h
  have hd : (0 : ℝ) < 2 * arm_a * arm_b := by norm_num [arm_a, arm_b]
  have hsq : arm_c v h ^ 2 ≤ (arm_a + arm_b) ^ 2 := by nlinarith [hrange, hc0]
  have h1 : -1 ≤ (arm_a ^ 2 + arm_b ^ 2 - arm_c v h ^ 2) / (2 * arm_a * arm_b) := by
    rw [le_div_iff hd]
    nlinarith [hsq]
  have h2 : (arm_a ^ 2 + arm_b ^ 2 - arm_c v h ^ 2) / (2 * arm_a * arm_b) ≤ 1 := by
    rw [div_le_one hd]
    simp only [arm_a, arm_b]
    nlinarith [sq_nonneg (arm_c v h)]
  unfold theta_link acosD
  rw [if_pos ⟨h1, h2⟩]

theorem theta_ac_eq (v h : ℝ) (hc : 0 < arm_c v h) (hrange : arm_c v h ≤ arm_a + arm_b) :
    theta_ac v h =
      some (Real.arccos
        ((arm_a ^ 2 + arm_c v h ^ 2 - arm_b ^ 2) / (2 * arm_a * arm_c v h))) := by
  have hd : (0 : ℝ) < 2 * arm_a * arm_c v h := by
    have : (0 : ℝ) < arm_a := by norm_num [arm_a]
    positivity
  have hab : arm_a = arm_b := rfl
  have h1 : -1 ≤ (arm_a ^ 2 + arm_c v h ^ 2 - arm_b ^ 2) / (2 * arm_a * arm_c v h) := by
    rw [le_div_iff hd]
    nlinarith [hc.le, sq_nonneg (arm_c v h), hab, mul_pos (show (0:ℝ) < arm_a by norm_num [arm_a]) hc]
  have h2 : (arm_a ^ 2 + arm_c v h ^ 2 - arm_b ^ 2) / (2 * arm_a * arm_c v h) ≤ 1 := by
    rw [div_le_one hd]
    simp only [arm_a, arm_b] at hrange ⊢
    nlinarith [hc, hrange]
  unfold theta_ac acosD
  rw [if_neg (ne_of_gt hc), if_pos ⟨h1, h2⟩]

theorem anglesForArmJoints_origin : anglesForArmJoints 0 0 = (some Real.pi, none) := by
  have hc : arm_c 0 0 = 0 := by
    unfold arm_c
    rw [show ((0:ℝ) ^ 2 + 0 ^ 2) = 0 by norm_num]
    exact Real.sqrt_zero
  have hlink : theta_link 0 0 = some 0 := by
    unfold theta_link acosD
    rw [hc]
    rw [show (arm_a ^ 2 + arm_b ^ 2 - (0:ℝ) ^ 2) / (2 * arm_a * arm_b) = 1 by
      norm_num [arm_a, arm_b]]
    rw [if_pos (by norm_num : (-1:ℝ) ≤ 1 ∧ (1:ℝ) ≤ 1)]
    rw [Real.arccos_one]
  have hservo : theta_servo 0 0 = none := by
    unfold theta_servo theta_hc
    rw [hc, if_pos rfl]
  unfold anglesForArmJoints
  rw [hlink, hservo]
  simp

/-- C1: for every input pair v, h with c strictly positive and within the
reachable range, anglesForArmJoints computes theta_hc as asin of v over c,
theta_link as acos of the law-of-cosines elbow argument, theta_ac as acos of
the shoulder argument, branches on the sign of h for the raw servo angle,
and returns pi plus theta_link and two pi minus the raw servo angle. -/
theorem C1_arm_solver_formula (v h : ℝ) (hc : 0 < arm_c v h)
    (hrange : arm_c v h ≤ arm_a + arm_b) :
    anglesForArmJoints v h =
      (some (Real.pi +
         Real.arccos ((arm_a ^ 2 + arm_b ^ 2 - arm_c v h ^ 2) / (2 * arm_a * arm_b))),
       some (2 * Real.pi -
         (if 0 ≤ h then
            Real.arcsin (v / arm_c v h) -
              Real.arccos ((arm_a ^ 2 + arm_c v h ^ 2 - arm_b ^ 2) / (2 * arm_a * arm_c v h))
          else
            Real.pi -
              (Real.arcsin (v / arm_c v h) +
                Real.arccos
                  ((arm_a ^ 2 + arm_c v h ^ 2 - arm_b ^ 2) / (2 * arm_a * arm_c v h)))))) := by
  have e1 := theta_link_eq v h hrange
  have e2 := theta_hc_eq v h hc
  have e3 := theta_ac_eq v h hc hrange
  unfold anglesForArmJoints theta_servo
  rw [e1, e2, e3]
  rfl

/-- Witness for C1 at v equal 0.033 and h equal 0.044, where c is 0.055. -/
theorem C1_arm_solver_formula_witness :
    (0 < arm_c 0.033 0.044 ∧ arm_c 0.033 0.044 ≤ arm_a + arm_b) ∧
    anglesForArmJoints 0.033 0.044 =
      (some (Real.pi +
         Real.arccos
           ((arm_a ^ 2 + arm_b ^ 2 - arm_c 0.033 0.044 ^ 2) / (2 * arm_a * arm_b))),
       some (2 * Real.pi -
         (if (0:ℝ) ≤ 0.044 then
            Real.arcsin (0.033 / arm_c 0.033 0.044) -
              Real.arccos
                ((arm_a ^ 2 + arm_c 0.033 0.044 ^ 2 - arm_b ^ 2) /
                  (2 * arm_a * arm_c 0.033 0.044))
          else
            Real.pi -
              (Real.arcsin (0.033 / arm_c 0.033 0.044) +
                Real.arccos
                  ((arm_a ^ 2 + arm_c 0.033 0.044 ^ 2 - arm_b ^ 2) /
                    (2 * arm_a * arm_c 0.033 0.044)))))) := by
  have hceq : arm_c 0.033 0.044 = 0.055 := by
    unfold arm_c
    rw [show ((0.033:ℝ) ^ 2 + 0.044 ^ 2) = 0.055 ^ 2 by norm_num]
    exact Real.sqrt_sq (by norm_num)
  have h1 : 0 < arm_c 0.033 0.044 := by rw [hceq]; norm_num
  have h2 : arm_c 0.033 0.044 ≤ arm_a + arm_b := by rw [hceq]; norm_num [arm_a, arm_b]
  exact ⟨⟨h1, h2⟩, C1_arm_solver_formula 0.033 0.044 h1 h2⟩

/-- C6 counterexample: at v equal 0.3 and h equal 0.4 the hypotenuse c is
0.5, beyond the reachable bound a plus b, and the solver silently returns
NaN for both angles instead of clamping or rejecting. -/
theorem C6_counterexample : anglesForArmJoints 0.3 0.4 = (none, none) := by
  have hceq : arm_c 0.3 0.4 = 0.5 := by
    unfold arm_c
    rw [show ((0.3:ℝ) ^ 2 + 0.4 ^ 2) = 0.5 ^ 2 by norm_num]
    exact Real.sqrt_sq (by norm_num)
  have hlink : theta_link 0.3 0.4 = none := by
    unfold theta_link acosD
    rw [hceq]
    rw [if_neg (by
      intro hcon
      have hcon1 := hcon.1
      norm_num [arm_a, arm_b] at hcon1)]
  have hac : theta_ac 0.3 0.4 = none := by
    unfold theta_ac acosD
    rw [hceq]
    rw [if_neg (by norm_num)]
    rw [if_neg (by
      intro hcon
      have hcon2 := hcon.2
      norm_num [arm_a, arm_b] at hcon2)]
  have hservo : theta_servo 0.3 0.4 = none := by
    unfold theta_servo
    rw [hac]
    cases htc : theta_hc 0.3 0.4 <;> rfl
  unfold anglesForArmJoints
  rw [hlink, hservo]
  rfl

/-- C6 amended: the solver does not clamp or reject.  At the upper boundary
c equal a plus b both returned angles are defined; strictly beyond it both
angles are NaN, silently; and at the lower boundary c equal the absolute
difference of a and b, which is zero, the servo angle is NaN. -/
theorem C6_boundary_behaviour (v h : ℝ) :
    (arm_c v h = arm_a + arm_b →
       ((anglesForArmJoints v h).1.isSome = true ∧ (anglesForArmJoints v h).2.isSome = true)) ∧
    (arm_a + arm_b < arm_c v h → anglesForArmJoints v h = (none, none)) ∧
    (arm_c v h = 0 → (anglesForArmJoints v h).2 = none) := by
  refine ⟨fun hb => ?_, fun hgt => ?_, fun h0 => ?_⟩
  · have hc : 0 < arm_c v h := by rw [hb]; norm_num [arm_a, arm_b]
    have e1 := theta_link_eq v h (le_of_eq hb)
    have e2 := theta_hc_eq v h hc
    have e3 := theta_ac_eq v h hc (le_of_eq hb)
    unfold anglesForArmJoints theta_servo
    rw [e1, e2, e3]
    simp
  · have hc : 0 < arm_c v h := lt_trans (by norm_num [arm_a, arm_b]) hgt
    have hlink : theta_link v h = none := by
      unfold theta_link acosD
      rw [if_neg (by
        intro hcon
        have hcon1 := hcon.1
        rw [le_div_iff (by norm_num [arm_a, arm_b] : (0:ℝ) < 2 * arm_a * arm_b)] at hcon1
        simp only [arm_a, arm_b] at hcon1 hgt
        nlinarith [hc, hgt, hcon1])]
    have hac : theta_ac v h = none := by
      unfold theta_ac acosD
      rw [if_neg (ne_of_gt hc)]
      rw [if_neg (by
        intro hcon
        have hcon2 := hcon.2
        rw [div_le_one (by
          have : (0:ℝ) < arm_a := by norm_num [arm_a]
          positivity)] at hcon2
        simp only [arm_a, arm_b] at hcon2 hgt
        nlinarith [hc, hgt, hcon2])]
    have hservo : theta_servo v h = none := by
      unfold theta_servo
      rw [hac]
      cases htc : theta_hc v h <;> rfl
    unfold anglesForArmJoints
    rw [hlink, hservo]
    rfl
  · have hservo : theta_servo v h = none := by
      unfold theta_servo theta_hc
      rw [h0, if_pos rfl]
    unfold anglesForArmJoints
    rw [hservo]
    rfl

/-- Witness for C6 at v equal 0.11 and h equal 0, the fully extended upper
boundary where c equals a plus b. -/
theorem C6_boundary_behaviour_witness :
    arm_c 0.11 0 = arm_a + arm_b ∧
    ((anglesForArmJoints 0.11 0).1.isSome = true ∧
      (anglesForArmJoints 0.11 0).2.isSome = true) := by
  have hceq : arm_c 0.11 0 = arm_a + arm_b := by
    unfold arm_c
    rw [show ((0.11:ℝ) ^ 2 + 0 ^ 2) = 0.11 ^ 2 by norm_num]
    rw [Real.sqrt_sq (by norm_num : (0:ℝ) ≤ 0.11)]
    norm_num [arm_a, arm_b]
  exact ⟨hceq, (C6_boundary_behaviour 0.11 0).1 hceq⟩

/-- C10 counterexample: at the degenerate input v equal 0 and h equal 0 the
link angle is not NaN, refuting the statement that both returned angles are
NaN there. -/
theorem C10_counterexample : (anglesForArmJoints 0 0).1 ≠ none := by
  rw [anglesForArmJoints_origin]
  simp

/-- C10 amended: at v equal 0 and h equal 0 the hypotenuse c is zero, the
asin and the shoulder acos divide by zero and the servo angle is NaN, while
the link acos argument is exactly one, so the returned link angle is defined
and equals pi; the solver has no guard for this input. -/
theorem C10_degenerate_input : anglesForArmJoints 0 0 = (some Real.pi, none) :=
  anglesForArmJoints_origin

/-- C3: for every unit quaternion supplied as the ball orientation, the ball
orientation the mapper produces is its exact algebraic inverse: the Hamilton
product of the output with the input is the identity quaternion. -/
theorem C3_ball_orientation_inverse (s : ModelState)
    (hunit : s.ballOrientX ^ 2 + s.ballOrientY ^ 2 + s.ballOrientZ ^ 2 +
      s.ballOrientW ^ 2 = 1) :
    quatMultiply (ballRot s)
        ⟨s.ballOrientX, s.ballOrientY, s.ballOrientZ, s.ballOrientW⟩ = ⟨0, 0, 0, 1⟩ := by
  unfold ballRot quatInvert quatConjugate quatMultiply
  simp only [Quat.mk.injEq]
  refine ⟨by ring, by ring, by ring, by linear_combination hunit⟩

/-- Witness for C3 at the identity ball orientation of the default state. -/
theorem C3_ball_orientation_inverse_witness :
    (defaultState.ballOrientX ^ 2 + defaultState.ballOrientY ^ 2 +
        defaultState.ballOrientZ ^ 2 + defaultState.ballOrientW ^ 2 = 1) ∧
    quatMultiply (ballRot defaultState)
        ⟨defaultState.ballOrientX, defaultState.ballOrientY, defaultState.ballOrientZ,
          defaultState.ballOrientW⟩ = ⟨0, 0, 0, 1⟩ := by
  have h1 : defaultState.ballOrientX ^ 2 + defaultState.ballOrientY ^ 2 +
      defaultState.ballOrientZ ^ 2 + defaultState.ballOrientW ^ 2 = 1 := by
    norm_num [defaultState]
  exact ⟨h1, C3_ball_orientation_inverse defaultState h1⟩

/-- C8: for the plate normal exactly antiparallel to the up axis the mapper
takes the fallback branch and returns the defined unit quaternion with
components 0, -1, 0, 0, a half-turn about the y axis, which indeed carries
the up axis onto the normal. -/
theorem C8_antiparallel_normal :
    setFromUnitVectors zAxisV ⟨0, 0, -1⟩ = ⟨0, -1, 0, 0⟩ ∧
    applyQuaternion zAxisV ⟨0, -1, 0, 0⟩ = ⟨0, 0, -1⟩ := by
  constructor
  · have hl : quatLength ⟨0, -1, 0, 0⟩ = 1 := by
      unfold quatLength
      rw [show ((0:ℝ) ^ 2 + (-1) ^ 2 + 0 ^ 2 + 0 ^ 2) = 1 by norm_num]
      exact Real.sqrt_one
    unfold setFromUnitVectors dotV zAxisV EPS
    rw [if_pos (by norm_num)]
    rw [if_neg (by
      simp only [abs_zero, abs_one]
      norm_num)]
    norm_num
    unfold quatNormalize
    rw [hl]
    rw [if_neg one_ne_zero]
    norm_num
  · unfold applyQuaternion zAxisV
    norm_num

/-- C2 counterexample: the non-unit normal with components 2, 0, 0 is
neither zero nor antiparallel to the up axis, yet the plate orientation the
mapper computes from it carries the up axis to a vector with a nonzero z
component, which is not parallel to the normal.  The library routine assumes
unit input and the mapper does not normalize first. -/
theorem C2_counterexample :
    ¬ parallelTo (applyQuaternion zAxisV (setFromUnitVectors zAxisV ⟨2, 0, 0⟩))
        ⟨2, 0, 0⟩ := by
  have h5pos : (0:ℝ) < Real.sqrt 5 := Real.sqrt_pos.mpr (by norm_num)
  have h5 : Real.sqrt 5 ≠ 0 := ne_of_gt h5pos
  have h5sq : Real.sqrt 5 ^ 2 = 5 := Real.sq_sqrt (by norm_num)
  have hL : quatLength ⟨0, 2, 0, 1⟩ = Real.sqrt 5 := by
    unfold quatLength
    norm_num
  have hq : setFromUnitVectors zAxisV ⟨2, 0, 0⟩ =
      ⟨0, 2 / Real.sqrt 5, 0, 1 / Real.sqrt 5⟩ := by
    unfold setFromUnitVectors dotV zAxisV EPS
    rw [if_neg (by norm_num)]
    norm_num
    unfold quatNormalize
    rw [hL, if_neg h5]
    norm_num
  rintro ⟨t, hpar⟩
  rw [hq] at hpar
  have hz := congrArg Vec3.z hpar
  unfold applyQuaternion zAxisV at hz
  simp only [] at hz
  have : (1 / Real.sqrt 5) * (1 / Real.sqrt 5) - (2 / Real.sqrt 5) * (2 / Real.sqrt 5)
      = 0 := by
    linear_combination hz
  rw [div_mul_div_comm, div_mul_div_comm] at this
  rw [show Real.sqrt 5 * Real.sqrt 5 = 5 by nlinarith [h5sq]] at this
  norm_num at this

/-- C2 amended: for every unit-length plate normal whose z component plus
one is at least the shortest-arc branch threshold EPS, the computed plate
orientation carries the up axis exactly onto the normal, in particular onto
a vector parallel to it.  Unit length is required: the mapper hands the raw
normal to a routine that assumes normalized input. -/
theorem C2_plate_orientation_unit_normal (n : Vec3)
    (hunit : n.x ^ 2 + n.y ^ 2 + n.z ^ 2 = 1) (hr : EPS ≤ n.z + 1) :
    applyQuaternion zAxisV (setFromUnitVectors zAxisV n) = n := by
  obtain ⟨nx, ny, nz⟩ := n
  simp only [] at hunit hr
  have hz1 : (0:ℝ) < nz + 1 := lt_of_lt_of_le (by norm_num [EPS]) hr
  have hNpos : (0:ℝ) < (0 * nz - 1 * ny) ^ 2 + (1 * nx - 0 * nz) ^ 2 +
      (0 * ny - 0 * nx) ^ 2 + (0 * nx + 0 * ny + 1 * nz + 1) ^ 2 := by
    nlinarith [sq_nonneg ny, sq_nonneg nx, mul_pos hz1 hz1]
  unfold setFromUnitVectors dotV zAxisV
  rw [if_neg (not_lt.mpr (by
    simp only []
    calc EPS ≤ nz + 1 := hr
      _ = 0 * nx + 0 * ny + 1 * nz + 1 := by ring))]
  unfold quatNormalize quatLength
  simp only []
  rw [if_neg (ne_of_gt (Real.sqrt_pos.mpr hNpos))]
  have hs2 : Real.sqrt ((0 * nz - 1 * ny) ^ 2 + (1 * nx - 0 * nz) ^ 2 +
      (0 * ny - 0 * nx) ^ 2 + (0 * nx + 0 * ny + 1 * nz + 1) ^ 2) ^ 2 =
      (0 * nz - 1 * ny) ^ 2 + (1 * nx - 0 * nz) ^ 2 +
      (0 * ny - 0 * nx) ^ 2 + (0 * nx + 0 * ny + 1 * nz + 1) ^ 2 :=
    Real.sq_sqrt hNpos.le
  set L := Real.sqrt ((0 * nz - 1 * ny) ^ 2 + (1 * nx - 0 * nz) ^ 2 +
      (0 * ny - 0 * nx) ^ 2 + (0 * nx + 0 * ny + 1 * nz + 1) ^ 2) with hLdef
  have hL0 : L ≠ 0 := ne_of_gt (Real.sqrt_pos.mpr hNpos)
  have hL2 : L ^ 2 = 2 * (nz + 1) := by
    rw [hs2]
    linear_combination hunit
  unfold applyQuaternion
  simp only [Vec3.mk.injEq]
  refine ⟨?_, ?_, ?_⟩
  · field_simp
    linear_combination (-nx) * hL2
  · field_simp
    linear_combination (-ny) * hL2
  · field_simp
    linear_combination (-nz) * hL2 - hunit

/-- Witness for C2 at the unit normal equal to the up axis itself. -/
theorem C2_plate_orientation_unit_normal_witness :
    ((0:ℝ) ^ 2 + 0 ^ 2 + 1 ^ 2 = 1) ∧ EPS ≤ (1:ℝ) + 1 ∧
    applyQuaternion zAxisV (setFromUnitVectors zAxisV ⟨0, 0, 1⟩) = ⟨0, 0, 1⟩ := by
  refine ⟨by norm_num, by norm_num [EPS], ?_⟩
  exact C2_plate_orientation_unit_normal ⟨0, 0, 1⟩ (by norm_num) (by norm_num [EPS])

/-- C4 counterexample: a state whose estimated x is present with the value
zero.  Both estimated coordinates are present, yet the ring position x is
the actual ball x, not the estimated x, because the JavaScript or treats the
number zero as absent. -/
theorem C4_counterexample :
    zeroEstimateState.estimatedPosX = some 0 ∧
    zeroEstimateState.estimatedPosY = some 0.03 ∧
    (ballRingPos zeroEstimateState ⟨0, 0, 0⟩).x ≠ 0 + (0:ℝ) := by
  refine ⟨rfl, rfl, ?_⟩
  simp only [ballRingPos, jsOrNum, zeroEstimateState, defaultState]
  norm_num

/-- C4 amended: each horizontal coordinate of the estimated ball ring is
chosen independently: the estimated component is used only when it is
present and nonzero, and otherwise that coordinate falls back to the actual
ball coordinate; the z coordinate always equals the plate z plus the plate
origin z. -/
theorem C4_ball_ring_position (s : ModelState) (orig : Vec3) :
    (∀ ex : ℝ, s.estimatedPosX = some ex → ex ≠ 0 →
       (ballRingPos s orig).x = ex + orig.x) ∧
    (s.estimatedPosX = none ∨ s.estimatedPosX = some 0 →
       (ballRingPos s orig).x = s.ballPosX + orig.x) ∧
    (∀ ey : ℝ, s.estimatedPosY = some ey → ey ≠ 0 →
       (ballRingPos s orig).y = ey + orig.y) ∧
    (s.estimatedPosY = none ∨ s.estimatedPosY = some 0 →
       (ballRingPos s orig).y = s.ballPosY + orig.y) ∧
    (ballRingPos s orig).z = s.platePosZ + orig.z := by
  refine ⟨fun ex hex hne => ?_, fun hfb => ?_, fun ey hey hne => ?_, fun hfb => ?_, rfl⟩
  · unfold ballRingPos jsOrNum
    rw [hex]
    simp [hne]
  · unfold ballRingPos jsOrNum
    rcases hfb with h0 | h0 <;> simp [h0]
  · unfold ballRingPos jsOrNum
    rw [hey]
    simp [hne]
  · unfold ballRingPos jsOrNum
    rcases hfb with h0 | h0 <;> simp [h0]

/-- Witness for C4 at a state with both estimated coordinates present and
nonzero and a zero origin vector. -/
theorem C4_ball_ring_position_witness :
    presentEstimateState.estimatedPosX = some 0.02 ∧
    (ballRingPos presentEstimateState ⟨0, 0, 0⟩).x = 0.02 + 0 ∧
    (ballRingPos presentEstimateState ⟨0, 0, 0⟩).z =
      presentEstimateState.platePosZ + 0 := by
  refine ⟨rfl, ?_, ?_⟩
  · exact (C4_ball_ring_position presentEstimateState ⟨0, 0, 0⟩).1 0.02 rfl (by norm_num)
  · exact (C4_ball_ring_position presentEstimateState ⟨0, 0, 0⟩).2.2.2.2

/-- C5 counterexample: with both estimated velocity components present and
zero the indicator output is produced, not hidden, so the zero vector is
passed to the normalization. -/
theorem C5_counterexample : (estimatedVelArrow (some 0) (some 0)).isSome = true := rfl

/-- C5 amended: with both components present and a zero-length vector the
indicator stays visible with the zero direction vector and zero magnitude;
no division by zero occurs because the library normalize divides by one when
the length is zero, so no NaN pose is produced. -/
theorem C5_zero_velocity (ex ey : ℝ) (hlen : vecLength ⟨ex, ey, 0⟩ = 0) :
    estimatedVelArrow (some ex) (some ey) = some (⟨ex, ey, 0⟩, 0) := by
  show some (vecNormalize ⟨ex, ey, 0⟩, vecLength ⟨ex, ey, 0⟩) = some (⟨ex, ey, 0⟩, 0)
  unfold vecNormalize
  rw [hlen]
  norm_num

/-- Witness for C5 at the zero estimated velocity. -/
theorem C5_zero_velocity_witness :
    vecLength ⟨0, 0, 0⟩ = 0 ∧ estimatedVelArrow (some 0) (some 0) = some (⟨0, 0, 0⟩, 0) := by
  have h : vecLength (⟨0, 0, 0⟩ : Vec3) = 0 := by
    unfold vecLength
    rw [show ((0:ℝ) ^ 2 + 0 ^ 2 + 0 ^ 2) = 0 by norm_num]
    exact Real.sqrt_zero
  exact ⟨h, C5_zero_velocity 0 0 h⟩

/-- C7: target visibility is false exactly when both target coordinates are
zero, obstacle visibility is false exactly when the radius is at most zero,
and the estimated ring is visible exactly when estimated x, estimated y and
estimated radius are all present. -/
theorem C7_visibility_rules (s : ModelState) :
    (¬ targetVisible s ↔ s.targetPosX = 0 ∧ s.targetPosY = 0) ∧
    (¬ obstacleVisible s ↔ s.obstacleRadius ≤ 0) ∧
    (estimatedPosVisible s ↔
      s.estimatedPosX.isSome = true ∧ s.estimatedPosY.isSome = true ∧
        s.estimatedRadius.isSome = true) := by
  refine ⟨?_, ?_, ?_⟩
  · simp [targetVisible, targetPos, not_or]
  · simp [obstacleVisible, not_lt]
  · simp [estimatedPosVisible, Option.isSome_iff_ne_none]

/-- C9: for every inbound message, each aliased field resolves to the
current name whenever that name is present, and to the legacy name exactly
when the current name is absent; this holds for roll against tilt_x, pitch
against tilt_y, and the obstacle, plate and target coordinate pairs. -/
theorem C9_legacy_alias_resolution (m : IterationFields) :
    (∀ t : ℝ, m.roll = some t → resolvedRoll m = some t) ∧
    (m.roll = none → resolvedRoll m = m.tilt_x) ∧
    (∀ t : ℝ, m.pitch = some t → resolvedPitch m = some t) ∧
    (m.pitch = none → resolvedPitch m = m.tilt_y) ∧
    (∀ t : ℝ, m.obstacle_x = some t → resolvedObstaclePosX m = some t) ∧
    (m.obstacle_x = none → resolvedObstaclePosX m = m.obstacle_pos_x) ∧
    (∀ t : ℝ, m.obstacle_y = some t → resolvedObstaclePosY m = some t) ∧
    (m.obstacle_y = none → resolvedObstaclePosY m = m.obstacle_pos_y) ∧
    (∀ t : ℝ, m.plate_x = some t → resolvedPlatePosX m = some t) ∧
    (m.plate_x = none → resolvedPlatePosX m = m.plate_pos_x) ∧
    (∀ t : ℝ, m.plate_y = some t → resolvedPlatePosY m = some t) ∧
    (m.plate_y = none → resolvedPlatePosY m = m.plate_pos_y) ∧
    (∀ t : ℝ, m.plate_z = some t → resolvedPlatePosZ m = some t) ∧
    (m.plate_z = none → resolvedPlatePosZ m = m.plate_pos_z) ∧
    (∀ t : ℝ, m.target_x = some t → resolvedTargetPosX m = some t) ∧
    (m.target_x = none → resolvedTargetPosX m = m.target_pos_x) ∧
    (∀ t : ℝ, m.target_y = some t → resolvedTargetPosY m = some t) ∧
    (m.target_y = none → resolvedTargetPosY m = m.target_pos_y) := by
  refine ⟨fun t ht => ?_, fun h0 => ?_, fun t ht => ?_, fun h0 => ?_, fun t ht => ?_,
    fun h0 => ?_, fun t ht => ?_, fun h0 => ?_, fun t ht => ?_, fun h0 => ?_,
    fun t ht => ?_, fun h0 => ?_, fun t ht => ?_, fun h0 => ?_, fun t ht => ?_,
    fun h0 => ?_, fun t ht => ?_, fun h0 => ?_⟩
  · unfold resolvedRoll; rw [ht]; rfl
  · unfold resolvedRoll; rw [h0]; rfl
  · unfold resolvedPitch; rw [ht]; rfl
  · unfold resolvedPitch; rw [h0]; rfl
  · unfold resolvedObstaclePosX; rw [ht]; rfl
  · unfold resolvedObstaclePosX; rw [h0]; rfl
  · unfold resolvedObstaclePosY; rw [ht]; rfl
  · unfold resolvedObstaclePosY; rw [h0]; rfl
  · unfold resolvedPlatePosX; rw [ht]; rfl
  · unfold resolvedPlatePosX; rw [h0]; rfl
  · unfold resolvedPlatePosY; rw [ht]; rfl
  · unfold resolvedPlatePosY; rw [h0]; rfl
  · unfold resolvedPlatePosZ; rw [ht]; rfl
  · unfold resolvedPlatePosZ; rw [h0]; rfl
  · unfold resolvedTargetPosX; rw [ht]; rfl
  · unfold resolvedTargetPosX; rw [h0]; rfl
  · unfold resolvedTargetPosY; rw [ht]; rfl
  · unfold resolvedTargetPosY; rw [h0]; rfl

/-- Witness for C9 at a legacy-only message: the resolved roll and pitch
equal the legacy tilt values exactly. -/
theorem C9_legacy_alias_resolution_witness :
    legacyMsg.roll = none ∧ resolvedRoll legacyMsg = some 0.25 ∧
    legacyMsg.pitch = none ∧ resolvedPitch legacyMsg = some (-0.5) := by
  refine ⟨rfl, ?_, rfl, ?_⟩
  · rw [(C9_legacy_alias_resolution legacyMsg).2.1 rfl]; rfl
  · rw [(C9_legacy_alias_resolution legacyMsg).2.2.2.1 rfl]; rfl

end MoabViz
